import Mathlib

set_option autoImplicit false

/-!
Verification of the incremental-load and change-detection core of the
intake-bluesky catalog sources (jsonl.py and msgpack.py).

The embedding is shallow.  JSON-compatible documents are modelled by the
mutual inductive family J / JList / JFields.  The pluggable line and frame
decoders are abstracted: a text file is a list of lines, each line carrying
its decode outcome (a JSON value, a JSON syntax error, or blank), and a
binary file is the list of JSON-like values its frame decoder yields.
Python tuple unpacking of a decoded value into a (name, document) pair is
modelled by unpack2; only a JSON syntax error is a JSONDecodeError, while a
failed unpacking raises an uncaught ValueError or TypeError.  Stateful code
(the per-loader file ledger, the list of upsert calls handed to the
indexing component, and the set of files whose contents were read) is
passed explicitly through a LoadOut record, and a raised exception is an
Option PyErr in the result.
-/

mutual

/-- A JSON-compatible document value, as produced by the pluggable decoders. -/
inductive J where
  | null
  | bool (b : Bool)
  | num (n : Int)
  | str (s : String)
  | arr (elts : JList)
  | obj (fields : JFields)
deriving Repr

/-- A list of JSON values (the elements of a JSON array). -/
inductive JList where
  | nil
  | cons (hd : J) (tl : JList)
deriving Repr

/-- The fields of a JSON object: ordered key-value pairs. -/
inductive JFields where
  | nil
  | cons (key : String) (val : J) (tl : JFields)
deriving Repr

end

mutual

/-- Structural equality test on JSON values. -/
def J.beq : J → J → Bool
  | .null, .null => true
  | .bool a, .bool b => a == b
  | .num a, .num b => a == b
  | .str a, .str b => a == b
  | .arr a, .arr b => JList.beq a b
  | .obj a, .obj b => JFields.beq a b
  | _, _ => false

/-- Structural equality test on JSON value lists. -/
def JList.beq : JList → JList → Bool
  | .nil, .nil => true
  | .cons a as, .cons b bs => J.beq a b && JList.beq as bs
  | _, _ => false

/-- Structural equality test on JSON object fields. -/
def JFields.beq : JFields → JFields → Bool
  | .nil, .nil => true
  | .cons k1 v1 as, .cons k2 v2 bs => k1 == k2 && J.beq v1 v2 && JFields.beq as bs
  | _, _ => false

end

/-- Convert a Lean list of JSON values into a JSON array body. -/
def JList.ofList : List J → JList
  | [] => .nil
  | x :: xs => .cons x (JList.ofList xs)

/-- Convert a Lean list of key-value pairs into JSON object fields. -/
def JFields.ofList : List (String × J) → JFields
  | [] => .nil
  | (k, v) :: xs => .cons k v (JFields.ofList xs)

/-- Whether a JSON array body is empty. -/
def JList.isEmpty : JList → Bool
  | .nil => true
  | .cons _ _ => false

/-- Whether a JSON object has no fields. -/
def JFields.isEmpty : JFields → Bool
  | .nil => true
  | .cons _ _ _ => false

/-- Python truthiness of a JSON-compatible value: None, False, 0, the empty
string, the empty list and the empty dict are falsy, everything else truthy. -/
def jTruthy : J → Bool
  | .null => false
  | .bool b => b
  | .num n => n != 0
  | .str s => !s.isEmpty
  | .arr l => !l.isEmpty
  | .obj f => !f.isEmpty

/-- The Python comparison of a decoded record name against the string literal
for the stop marker: true exactly when the value is the string "stop"
(comparing a non-string against a string is simply unequal in Python). -/
def isStopName : J → Bool
  | .str s => s == "stop"
  | _ => false

/-- Python tuple unpacking of a decoded value into exactly two items, as in
the source statements that bind a (name, document) pair.  A two-element
array yields its elements; a two-character string yields its characters; a
two-field object iterates as its keys.  Any other value makes the unpacking
raise a ValueError or TypeError, modelled as none. -/
def unpack2 : J → Option (J × J)
  | .arr (JList.cons a (JList.cons b JList.nil)) => some (a, b)
  | .str s =>
      match s.toList with
      | [c1, c2] => some (J.str (String.mk [c1]), J.str (String.mk [c2]))
      | _ => none
  | .obj (JFields.cons k1 _ (JFields.cons k2 _ JFields.nil)) => some (J.str k1, J.str k2)
  | _ => none

/-- Modelled from the spec: the query-matching semantics of the external
indexing component, which is excluded from the sources.  A field in the doc
lookup compared for equality against the query value. -/
def dlookup : JFields → String → J → Bool
  | .nil, _, _ => false
  | .cons k1 v1 rest, k, v => if k1 = k then J.beq v1 v else dlookup rest k v

mutual

/-- Modelled from the spec: the query-matching semantics of the external
indexing component (a Mongo-style filter).  An object query matches a
document when every field condition holds; a field named with the AND
operator key requires each query in its array to match; any other field
requires the document to hold a structurally equal value at that key. -/
def matchesQ : J → J → Bool
  | .obj fields, doc => matchesQFields fields doc
  | _, _ => false

/-- Modelled from the spec: conjunction of the field conditions of an object
query, each condition interpreted as in matchesQ. -/
def matchesQFields : JFields → J → Bool
  | .nil, _ => true
  | .cons k v rest, doc =>
      (if k = "$and" then
        match v with
        | .arr qs => matchesQAll qs doc
        | _ => false
      else
        match doc with
        | .obj dfields => dlookup dfields k v
        | _ => false)
      && matchesQFields rest doc

/-- Modelled from the spec: a document matches a list of queries when it
matches every one of them. -/
def matchesQAll : JList → J → Bool
  | .nil, _ => true
  | .cons q rest, doc => matchesQ q doc && matchesQAll rest doc

end

/-- The two ways the catalog constructor accepts its paths argument: a single
path (a string or path object) or a list of paths. -/
inductive PathsArg where
  | single (p : String)
  | pathList (ps : List String)

/-- The catalog facade state relevant to this core: the stored list of path
patterns, the stored filter query, and the per-instance file ledger.
The paths list and the ledger are set by the constructors in jsonl.py and
msgpack.py. Modelled from the spec: the external indexing-component base
class, which is not among the sources, stores the optional filter query it
receives unchanged. -/
structure Catalog where
  paths : List String
  query : Option J
  ledger : List (String × Int)

/-- The constructor of BlueskyJSONLCatalog and BlueskyMsgpackCatalog: a
single path is normalized to a one-element list, the file ledger starts
empty, and the query is handed through to the base class. -/
def initCatalog (paths : PathsArg) (query : Option J) : Catalog :=
  ⟨(match paths with
    | .single p => [p]
    | .pathList ps => ps), query, []⟩

/-- The query combination performed by search: when the currently stored
filter is truthy, wrap it together with the new query under the AND
operator; otherwise pass the new query on unchanged. -/
def searchQuery (cur : Option J) (q : J) : J :=
  match cur with
  | none => q
  | some q0 =>
      if jTruthy q0 then
        J.obj (JFields.ofList [("$and", J.arr (JList.ofList [q0, q]))])
      else q

/-- The search method: build the combined query and construct a new catalog
of the same type with the same paths; the constructor gives the derived
instance a fresh empty ledger. -/
def search (c : Catalog) (q : J) : Catalog :=
  ⟨c.paths, some (searchQuery c.query q), []⟩

/-- State-passing form of the search method: the receiving instance is
threaded through unchanged (the method body assigns none of its fields)
alongside the derived catalog it returns. -/
def searchSt (c : Catalog) (q : J) : Catalog × Catalog :=
  (c, search c q)

/-- The query with a single field a mapped to 1, from the claim. -/
def qA : J := J.obj (JFields.ofList [("a", J.num 1)])

/-- The query with a single field b mapped to 2, from the claim. -/
def qB : J := J.obj (JFields.ofList [("b", J.num 2)])

/-- The filter actually stored after the two chained search calls. -/
def qStored : J := J.obj (JFields.ofList [("$and", J.arr (JList.ofList [qA, qB]))])

/-- The nested filter shape asserted by the claim, with the empty initial
filter wrapped into an inner AND. -/
def qClaimed : J :=
  J.obj (JFields.ofList
    [("$and", J.arr (JList.ofList
      [J.obj (JFields.ofList [("$and", J.arr (JList.ofList [J.obj JFields.nil, qA]))]), qB]))])

/-- One line of a text-encoded file, carrying the outcome the pluggable JSON
decoder gives it: a decoded JSON value, a JSON syntax error, or a line of
only whitespace (which the tail reader skips and which is also not valid
JSON). -/
inductive TLine where
  | val (j : J)
  | bad
  | blank
deriving Repr

/-- Whether a line holds only whitespace. -/
def TLine.isBlank : TLine → Bool
  | .blank => true
  | _ => false

/-- Modelled from the spec: core.tail, which is not among the sources.
Returns the last line of the file that holds non-whitespace content, or
none if the file is empty or holds only blank lines. -/
def tailLine : List TLine → Option TLine
  | [] => none
  | l :: rest =>
      match tailLine rest with
      | some x => some x
      | none => if l.isBlank then none else some l

/-- get_stop of jsonl.py: take the last non-blank line via the tail reader;
no line means no stop document; a JSON syntax error on that line is caught
and swallowed, leaving no stop document; a decoded value is unpacked as a
(name, document) pair, and a failed unpacking raises an error that the
handler for JSON syntax errors does not catch; the document is returned
exactly when the name is the stop marker. -/
def get_stop_t (lines : List TLine) : Except Unit (Option J) :=
  match tailLine lines with
  | none => .ok none
  | some .blank => .ok none
  | some .bad => .ok none
  | some (.val j) =>
      match unpack2 j with
      | none => .error ()
      | some (n, d) => .ok (if isStopName n then some d else none)

/-- get_stop of msgpack.py: iterate the decoded record sequence from the
start, unpacking each value as a (name, document) pair, and return the
document of the first record whose name is the stop marker; return none
when the sequence ends without one; a value that fails to unpack raises. -/
def get_stop_m : List J → Except Unit (Option J)
  | [] => .ok none
  | j :: rest =>
      match unpack2 j with
      | none => .error ()
      | some (n, d) => if isStopName n then .ok (some d) else get_stop_m rest

/-- A text-encoded file as matched by the glob snapshot: its path, its
current modification timestamp, and its lines. -/
structure FileEntry where
  filename : String
  mtime : Int
  lines : List TLine
deriving Repr

/-- A binary-encoded file as matched by the glob snapshot: its path, its
current modification timestamp, and the values its frame decoder yields. -/
structure MEntry where
  filename : String
  mtime : Int
  records : List J
deriving Repr

/-- Look up the remembered modification timestamp of a path in the file
ledger, as the Python mapping get with a default of None. -/
def lget : List (String × Int) → String → Option Int
  | [], _ => none
  | (k1, v1) :: rest, k => if k1 = k then some v1 else lget rest k

/-- Write a modification timestamp into the file ledger, as the Python
mapping assignment: replace the value of an existing key in place,
otherwise append the new entry. -/
def lset : List (String × Int) → String → Int → List (String × Int)
  | [], k, v => [(k, v)]
  | (k1, v1) :: rest, k, v =>
      if k1 = k then (k1, v) :: rest else (k1, v1) :: lset rest k v

/-- One upsert call handed to the external indexing component: the start
document, the optional stop document, and the path given to the record
stream factory. -/
structure Upsert where
  start_doc : J
  stop_doc : Option J
  filename : String
deriving Repr

/-- A Python exception escaping a load cycle: a JSON syntax error from the
decoder, or a ValueError or TypeError from unpacking a decoded value. -/
inductive PyErr where
  | jsonDecode (filename : String)
  | valueError (filename : String)
deriving Repr, DecidableEq

/-- The observable outcome of load cycles: the file ledger owned by the
loader, the upsert calls handed to the indexing component in order, and the
paths whose contents were opened and read (a parse was attempted). -/
structure LoadOut where
  ledger : List (String × Int)
  upserts : List Upsert
  parsed : List String
deriving Repr

/-- The body of the per-file loop of BlueskyJSONLCatalog loading: skip the
file when its modification timestamp equals the remembered one; otherwise
write the new timestamp into the ledger, then read the first line.  A first
line with a JSON syntax error raises that error only when a second line
exists, and is skipped silently otherwise; a first line whose decoded value
fails to unpack raises an uncaught error; otherwise the stop document is
probed via get_stop (whose own unpacking failure also raises) and one
upsert is recorded. -/
def loadFile (st : LoadOut) (f : FileEntry) : LoadOut × Option PyErr :=
  if lget st.ledger f.filename = some f.mtime then (st, none)
  else
    let st1 : LoadOut :=
      ⟨lset st.ledger f.filename f.mtime, st.upserts, st.parsed ++ [f.filename]⟩
    match f.lines.head? with
    | none => (st1, none)
    | some TLine.bad =>
        if 2 ≤ f.lines.length then (st1, some (PyErr.jsonDecode f.filename)) else (st1, none)
    | some TLine.blank =>
        if 2 ≤ f.lines.length then (st1, some (PyErr.jsonDecode f.filename)) else (st1, none)
    | some (TLine.val j) =>
        match unpack2 j with
        | none => (st1, some (PyErr.valueError f.filename))
        | some (_, start_doc) =>
            match get_stop_t f.lines with
            | .error _ => (st1, some (PyErr.valueError f.filename))
            | .ok stop_doc =>
                (⟨st1.ledger, st1.upserts ++ [⟨start_doc, stop_doc, f.filename⟩], st1.parsed⟩,
                  none)

/-- One refresh cycle of the text loader over the snapshot of matched files:
files are processed in order, and a raised exception aborts the cycle,
leaving the effects of the files already processed in place. -/
def loadText : List FileEntry → LoadOut → LoadOut × Option PyErr
  | [], st => (st, none)
  | f :: rest, st =>
      match loadFile st f with
      | (st1, none) => loadText rest st1
      | (st1, some e) => (st1, some e)

/-- The body of the per-file loop of BlueskyMsgpackCatalog loading: skip the
file when its modification timestamp equals the remembered one; otherwise
write the new timestamp into the ledger, then take the first decoded value.
An exhausted decoder means the file is skipped silently; a first value that
fails to unpack raises; otherwise the stop document is probed via get_stop
(whose unpacking failure also raises) and one upsert is recorded. -/
def loadFileM (st : LoadOut) (g : MEntry) : LoadOut × Option PyErr :=
  if lget st.ledger g.filename = some g.mtime then (st, none)
  else
    let st1 : LoadOut :=
      ⟨lset st.ledger g.filename g.mtime, st.upserts, st.parsed ++ [g.filename]⟩
    match g.records.head? with
    | none => (st1, none)
    | some j =>
        match unpack2 j with
        | none => (st1, some (PyErr.valueError g.filename))
        | some (_, start_doc) =>
            match get_stop_m g.records with
            | .error _ => (st1, some (PyErr.valueError g.filename))
            | .ok stop_doc =>
                (⟨st1.ledger, st1.upserts ++ [⟨start_doc, stop_doc, g.filename⟩], st1.parsed⟩,
                  none)

/-- One refresh cycle of the binary loader over the snapshot of matched
files, sequential with the same abort-on-raise behaviour as the text
loader. -/
def loadMsg : List MEntry → LoadOut → LoadOut × Option PyErr
  | [], st => (st, none)
  | g :: rest, st =>
      match loadFileM st g with
      | (st1, none) => loadMsg rest st1
      | (st1, some e) => (st1, some e)

/-- Whether a decoded binary value has the shape of a proper record: a
two-element array. -/
def isPairRec : J → Bool
  | .arr (JList.cons _ (JList.cons _ JList.nil)) => true
  | _ => false

/-- Whether a decoded binary value is a record named with the stop marker. -/
def recIsStop : J → Bool
  | .arr (JList.cons n (JList.cons _ JList.nil)) => isStopName n
  | _ => false

/-- The behaviour the claim ascribes to the binary get_stop, stated in its
own words for comparison: the document of the final record in the file
exactly when that record is named with the stop marker, and none
otherwise. -/
def specStop (f : List J) : Option J :=
  match f.getLast? with
  | some (J.arr (JList.cons n (JList.cons d JList.nil))) =>
      if isStopName n then some d else none
  | _ => none

/-- The two-element record named with the stop marker, used as a concrete
binary file fragment. -/
def mRecStop : J := J.arr (JList.ofList [J.str "stop", J.obj JFields.nil])

/-- A two-element record named event, used as a concrete final record that
is not a stop record. -/
def mRecEvent : J := J.arr (JList.ofList [J.str "event", J.obj JFields.nil])

/-- A line that parses as JSON but is a three-element array, so it cannot be
unpacked into a (name, document) pair. -/
def badLastLine : J := J.arr (JList.ofList [J.num 1, J.num 2, J.num 3])

/-- Claim C1 counterexample: on a catalog constructed with no filter, the
chained searches store exactly the flat combination of the two queries; the
stored filter is not the claimed nested form, because the falsy initial
filter is never wrapped into an AND. -/
theorem C1_counterexample :
    (search (search (initCatalog (PathsArg.pathList ["x"]) none) qA) qB).query
      = some qStored ∧
    (search (search (initCatalog (PathsArg.pathList ["x"]) none) qA) qB).query
      ≠ some qClaimed := by
  constructor
  · rfl
  · simp [search, searchQuery, initCatalog, jTruthy, qA, qB, qStored, qClaimed,
      JFields.ofList, JList.ofList, JFields.isEmpty]

/-- Claim C1 (amended): chained searches on a catalog constructed with no
filter store exactly the AND of the two queries, with the first search
result kept whole as the first arm; the empty initial filter is not wrapped,
so the inner nesting of the claim is absent, but the stored filter is
logically equivalent to the claimed nested form. -/
theorem C1_amended_thm (pa : PathsArg) :
    (search (search (initCatalog pa none) qA) qB).query = some qStored ∧
    (∀ d : J, matchesQ qStored d = matchesQ qClaimed d) := by
  constructor
  · rfl
  · intro d
    simp [qStored, qClaimed, qA, qB, JFields.ofList, JList.ofList,
      matchesQ, matchesQFields, matchesQAll]

/-- Claim C8: passing a single path to the constructor produces the same
catalog state as passing the one-element list holding that path, so refresh
and search behave identically on the two instances. -/
theorem C8_thm (p : String) (q : Option J) :
    initCatalog (PathsArg.single p) q = initCatalog (PathsArg.pathList [p]) q ∧
    (initCatalog (PathsArg.single p) q).paths = [p] := by
  exact ⟨rfl, rfl⟩

/-- Claim C9: search leaves the receiving catalog unchanged, and the derived
catalog it returns has the same paths as the parent and a fresh empty file
ledger. -/
theorem C9_thm (c : Catalog) (q : J) :
    (searchSt c q).1 = c ∧
    (searchSt c q).2.paths = c.paths ∧
    (searchSt c q).2.ledger = [] := by
  exact ⟨rfl, rfl, rfl⟩

/-- Claim C10: when the stored filter is None or the empty mapping, search
stores the new query unchanged, with no AND wrapping. -/
theorem C10_thm (c : Catalog) (q : J)
    (h : c.query = none ∨ c.query = some (J.obj JFields.nil)) :
    (search c q).query = some q := by
  rcases h with h | h <;> simp [search, searchQuery, h, jTruthy, JFields.isEmpty]

/-- Claim C10 witness: a concrete no-filter catalog and a concrete query. -/
theorem C10_w :
    (search (Catalog.mk ["p"] none []) (J.obj (JFields.ofList [("x", J.num 7)]))).query
      = some (J.obj (JFields.ofList [("x", J.num 7)])) :=
  C10_thm (Catalog.mk ["p"] none []) (J.obj (JFields.ofList [("x", J.num 7)])) (Or.inl rfl)

theorem lget_lset_self (l : List (String × Int)) (k : String) (v : Int) :
    lget (lset l k v) k = some v := by
  induction l with
  | nil => simp [lset, lget]
  | cons p rest ih =>
      obtain ⟨k1, v1⟩ := p
      by_cases h : k1 = k <;> simp [lset, lget, h, ih]

theorem loadFile_skip (st : LoadOut) (f : FileEntry)
    (h : lget st.ledger f.filename = some f.mtime) :
    loadFile st f = (st, none) := by
  unfold loadFile
  rw [if_pos h]

theorem loadFileM_skip (st : LoadOut) (g : MEntry)
    (h : lget st.ledger g.filename = some g.mtime) :
    loadFileM st g = (st, none) := by
  unfold loadFileM
  rw [if_pos h]

theorem loadFile_ledger (st : LoadOut) (f : FileEntry)
    (h : lget st.ledger f.filename ≠ some f.mtime) :
    (loadFile st f).1.ledger = lset st.ledger f.filename f.mtime := by
  unfold loadFile
  rw [if_neg h]
  dsimp only
  repeat' split
  all_goals rfl

theorem loadFileM_ledger (st : LoadOut) (g : MEntry)
    (h : lget st.ledger g.filename ≠ some g.mtime) :
    (loadFileM st g).1.ledger = lset st.ledger g.filename g.mtime := by
  unfold loadFileM
  rw [if_neg h]
  dsimp only
  repeat' split
  all_goals rfl

theorem loadText_skip_all (fs : List FileEntry) (st : LoadOut)
    (h : ∀ f ∈ fs, lget st.ledger f.filename = some f.mtime) :
    loadText fs st = (st, none) := by
  induction fs with
  | nil => rfl
  | cons f rest ih =>
      unfold loadText
      rw [loadFile_skip st f (h f (List.mem_cons_self f rest))]
      exact ih (fun x hx => h x (List.mem_cons_of_mem f hx))

theorem loadMsg_skip_all (gs : List MEntry) (st : LoadOut)
    (h : ∀ g ∈ gs, lget st.ledger g.filename = some g.mtime) :
    loadMsg gs st = (st, none) := by
  induction gs with
  | nil => rfl
  | cons g rest ih =>
      unfold loadMsg
      rw [loadFileM_skip st g (h g (List.mem_cons_self g rest))]
      exact ih (fun x hx => h x (List.mem_cons_of_mem g hx))

/-- Claim C4: when every matched file has the modification timestamp the
ledger remembers for it, a refresh cycle of either loader leaves its state
untouched, reads no file contents and records no upserts. -/
theorem C4_thm (tfs : List FileEntry) (mfs : List MEntry)
    (lt lm : List (String × Int))
    (h1 : ∀ f ∈ tfs, lget lt f.filename = some f.mtime)
    (h2 : ∀ g ∈ mfs, lget lm g.filename = some g.mtime) :
    loadText tfs ⟨lt, [], []⟩ = (⟨lt, [], []⟩, none) ∧
    loadMsg mfs ⟨lm, [], []⟩ = (⟨lm, [], []⟩, none) :=
  ⟨loadText_skip_all tfs ⟨lt, [], []⟩ h1, loadMsg_skip_all mfs ⟨lm, [], []⟩ h2⟩

/-- Claim C4 witness: one text file and one binary file whose timestamps
match their ledger entries are both skipped. -/
theorem C4_w :
    loadText [⟨"f", 3, [TLine.bad]⟩] ⟨[("f", 3)], [], []⟩ = (⟨[("f", 3)], [], []⟩, none) ∧
    loadMsg [⟨"g", 4, []⟩] ⟨[("g", 4)], [], []⟩ = (⟨[("g", 4)], [], []⟩, none) :=
  C4_thm [⟨"f", 3, [TLine.bad]⟩] [⟨"g", 4, []⟩] [("f", 3)] [("g", 4)]
    (by decide) (by decide)

/-- Claim C6: whenever a file is seen with a timestamp differing from the
remembered one, the per-file step leaves the new timestamp in the ledger no
matter how parsing goes (including the raising branches), and a subsequent
step on the same unchanged file skips it entirely. -/
theorem C6_thm (st sm : LoadOut) (f : FileEntry) (g : MEntry)
    (h1 : lget st.ledger f.filename ≠ some f.mtime)
    (h2 : lget sm.ledger g.filename ≠ some g.mtime) :
    lget (loadFile st f).1.ledger f.filename = some f.mtime ∧
    (∀ us ps, loadFile ⟨(loadFile st f).1.ledger, us, ps⟩ f =
      (⟨(loadFile st f).1.ledger, us, ps⟩, none)) ∧
    lget (loadFileM sm g).1.ledger g.filename = some g.mtime ∧
    (∀ us ps, loadFileM ⟨(loadFileM sm g).1.ledger, us, ps⟩ g =
      (⟨(loadFileM sm g).1.ledger, us, ps⟩, none)) := by
  have hfl : lget (loadFile st f).1.ledger f.filename = some f.mtime := by
    rw [loadFile_ledger st f h1, lget_lset_self]
  have hgl : lget (loadFileM sm g).1.ledger g.filename = some g.mtime := by
    rw [loadFileM_ledger sm g h2, lget_lset_self]
  refine ⟨hfl, fun us ps => ?_, hgl, fun us ps => ?_⟩
  · exact loadFile_skip ⟨(loadFile st f).1.ledger, us, ps⟩ f hfl
  · exact loadFileM_skip ⟨(loadFileM sm g).1.ledger, us, ps⟩ g hgl

/-- Claim C6 witness: a fresh ledger and concrete files with new
timestamps. -/
theorem C6_w :
    lget (loadFile ⟨[], [], []⟩ ⟨"f", 1, []⟩).1.ledger "f" = some 1 ∧
    (∀ us ps, loadFile ⟨(loadFile ⟨[], [], []⟩ ⟨"f", 1, []⟩).1.ledger, us, ps⟩ ⟨"f", 1, []⟩ =
      (⟨(loadFile ⟨[], [], []⟩ ⟨"f", 1, []⟩).1.ledger, us, ps⟩, none)) ∧
    lget (loadFileM ⟨[], [], []⟩ ⟨"g", 2, []⟩).1.ledger "g" = some 2 ∧
    (∀ us ps, loadFileM ⟨(loadFileM ⟨[], [], []⟩ ⟨"g", 2, []⟩).1.ledger, us, ps⟩ ⟨"g", 2, []⟩ =
      (⟨(loadFileM ⟨[], [], []⟩ ⟨"g", 2, []⟩).1.ledger, us, ps⟩, none)) :=
  C6_thm ⟨[], [], []⟩ ⟨[], [], []⟩ ⟨"f", 1, []⟩ ⟨"g", 2, []⟩ (by decide) (by decide)

/-- Claim C2 counterexample: an empty text file with a new timestamp is
skipped without raising and without upsert, but the cycle does advance the
ledger to the new timestamp, and a second cycle with the unchanged
timestamp does not re-examine the file (it reads no contents), contrary to
the claim. -/
theorem C2_counterexample :
    loadText [⟨"f", 5, []⟩] ⟨[], [], []⟩ = (⟨[("f", 5)], [], ["f"]⟩, none) ∧
    lget (loadText [⟨"f", 5, []⟩] ⟨[], [], []⟩).1.ledger "f" = some 5 ∧
    loadText [⟨"f", 5, []⟩] ⟨[("f", 5)], [], []⟩ = (⟨[("f", 5)], [], []⟩, none) :=
  ⟨rfl, rfl, rfl⟩

/-- Claim C2 (amended): a transient-not-ready file (text: the first line has
a JSON syntax error and there is no second line, or the file is empty;
binary: zero records) is skipped without raising and without any upsert,
but the ledger entry for the file IS advanced to the new timestamp before
the parse attempt, so the file is re-examined on a later refresh only if
its timestamp changes again. -/
theorem C2_amended_thm (st sm : LoadOut) (f : FileEntry) (g : MEntry)
    (hf : f.lines = [] ∨ f.lines = [TLine.bad] ∨ f.lines = [TLine.blank])
    (hg : g.records = [])
    (h1 : lget st.ledger f.filename ≠ some f.mtime)
    (h2 : lget sm.ledger g.filename ≠ some g.mtime) :
    loadFile st f =
      (⟨lset st.ledger f.filename f.mtime, st.upserts, st.parsed ++ [f.filename]⟩, none) ∧
    loadFileM sm g =
      (⟨lset sm.ledger g.filename g.mtime, sm.upserts, sm.parsed ++ [g.filename]⟩, none) := by
  constructor
  · unfold loadFile
    rw [if_neg h1]
    rcases hf with hf | hf | hf <;> rw [hf] <;> rfl
  · unfold loadFileM
    rw [if_neg h2, hg]
    rfl

/-- Claim C2 (amended) witness: an empty text file and an empty binary file
with fresh timestamps. -/
theorem C2_amended_w :
    loadFile ⟨[], [], []⟩ ⟨"f", 5, []⟩ = (⟨[("f", 5)], [], ["f"]⟩, none) ∧
    loadFileM ⟨[], [], []⟩ ⟨"g", 6, []⟩ = (⟨[("g", 6)], [], ["g"]⟩, none) :=
  C2_amended_thm ⟨[], [], []⟩ ⟨[], [], []⟩ ⟨"f", 5, []⟩ ⟨"g", 6, []⟩
    (Or.inl rfl) rfl (by decide) (by decide)

theorem loadText_append (xs ys : List FileEntry) (st : LoadOut) :
    loadText (xs ++ ys) st =
      match loadText xs st with
      | (st1, none) => loadText ys st1
      | (st1, some e) => (st1, some e) := by
  induction xs generalizing st with
  | nil => rfl
  | cons f rest ih =>
      have hL : loadText ((f :: rest) ++ ys) st =
          (match loadFile st f with
            | (st1, none) => loadText (rest ++ ys) st1
            | (st1, some e) => (st1, some e)) := rfl
      have hR : loadText (f :: rest) st =
          (match loadFile st f with
            | (st1, none) => loadText rest st1
            | (st1, some e) => (st1, some e)) := rfl
      rw [hL, hR]
      rcases loadFile st f with ⟨st1, e⟩
      cases e with
      | none => exact ih st1
      | some e => rfl

/-- Claim C5: a text file whose first line carries a JSON syntax error and
which has a second line makes the refresh cycle raise that decode error and
abort: the upserts of the cycle are exactly those of the files before it, the
failing file contributes none, and no file after it is processed. -/
theorem C5_thm (pre post : List FileEntry) (f : FileEntry) (st0 st : LoadOut)
    (hpre : loadText pre st0 = (st, none))
    (hbad : f.lines.head? = some TLine.bad ∨ f.lines.head? = some TLine.blank)
    (hlen : 2 ≤ f.lines.length)
    (hm : lget st.ledger f.filename ≠ some f.mtime) :
    loadText (pre ++ f :: post) st0 =
      (⟨lset st.ledger f.filename f.mtime, st.upserts, st.parsed ++ [f.filename]⟩,
        some (PyErr.jsonDecode f.filename)) := by
  rw [loadText_append, hpre]
  show loadText (f :: post) st = _
  have hlf : loadFile st f =
      (⟨lset st.ledger f.filename f.mtime, st.upserts, st.parsed ++ [f.filename]⟩,
        some (PyErr.jsonDecode f.filename)) := by
    unfold loadFile
    rw [if_neg hm]
    rcases hbad with hb | hb <;> rw [hb] <;> dsimp only <;> rw [if_pos hlen]
  show (match loadFile st f with
    | (st1, none) => loadText post st1
    | (st1, some e) => (st1, some e)) = _
  rw [hlf]

/-- Claim C5 witness: a two-line file whose first line fails to decode, as
the only matched file of a cycle starting from an empty ledger. -/
theorem C5_w :
    loadText [⟨"f", 1, [TLine.bad, TLine.bad]⟩] ⟨[], [], []⟩ =
      (⟨[("f", 1)], [], ["f"]⟩, some (PyErr.jsonDecode "f")) :=
  C5_thm [] [] ⟨"f", 1, [TLine.bad, TLine.bad]⟩ ⟨[], [], []⟩ ⟨[], [], []⟩
    rfl (Or.inl rfl) (by decide) (by decide)

theorem isPairRec_shape (r : J) (h : isPairRec r = true) :
    ∃ n d, r = J.arr (JList.cons n (JList.cons d JList.nil)) := by
  cases r with
  | null => exact Bool.noConfusion h
  | bool b => exact Bool.noConfusion h
  | num n => exact Bool.noConfusion h
  | str s => exact Bool.noConfusion h
  | obj fs => exact Bool.noConfusion h
  | arr l =>
      cases l with
      | nil => exact Bool.noConfusion h
      | cons a tl =>
          cases tl with
          | nil => exact Bool.noConfusion h
          | cons b tl2 =>
              cases tl2 with
              | nil => exact ⟨a, b, rfl⟩
              | cons c tl3 => exact Bool.noConfusion h

theorem specStop_cons_cons (a b : J) (l : List J) :
    specStop (a :: b :: l) = specStop (b :: l) := by
  unfold specStop
  rw [List.getLast?_cons_cons]

/-- Claim C3 counterexample: in a binary file holding a stop-named record
followed by a further record, the final record is not a stop record, so the
claim demands a result of none; the source function, which returns on the
first stop-named record it meets, returns the document of that record instead. -/
theorem C3_counterexample :
    recIsStop mRecEvent = false ∧
    [mRecStop, mRecEvent].getLast? = some mRecEvent ∧
    get_stop_m [mRecStop, mRecEvent] = Except.ok (some (J.obj JFields.nil)) :=
  ⟨rfl, rfl, rfl⟩

/-- Claim C3 (amended): the binary get_stop returns the document of the
first record named with the stop marker; hence on files whose records are
proper two-element pairs and where no record before the last is stop-named,
it returns the document of the final record exactly when that record is a stop
record, and none otherwise. -/
theorem C3_amended_thm (fs : List J)
    (hshape : ∀ r ∈ fs, isPairRec r = true)
    (hstop : ∀ r ∈ fs.dropLast, recIsStop r = false) :
    get_stop_m fs = Except.ok (specStop fs) := by
  induction fs with
  | nil => rfl
  | cons r rest ih =>
      obtain ⟨n, d, rfl⟩ := isPairRec_shape r (hshape r (List.mem_cons_self r rest))
      cases rest with
      | nil =>
          by_cases hs : isStopName n = true
          · simp [get_stop_m, unpack2, specStop, hs]
          · simp [get_stop_m, unpack2, specStop, hs]
      | cons r2 rest2 =>
          have hd : (J.arr (JList.cons n (JList.cons d JList.nil)) :: r2 :: rest2).dropLast
              = J.arr (JList.cons n (JList.cons d JList.nil)) :: (r2 :: rest2).dropLast := rfl
          have hns : recIsStop (J.arr (JList.cons n (JList.cons d JList.nil))) = false := by
            apply hstop
            rw [hd]
            exact List.mem_cons_self _ _
          have hn : isStopName n = false := by
            simpa [recIsStop] using hns
          have ih2 := ih
            (fun x hx => hshape x (List.mem_cons_of_mem _ hx))
            (fun x hx => by
              apply hstop
              rw [hd]
              exact List.mem_cons_of_mem _ hx)
          rw [specStop_cons_cons]
          rw [← ih2]
          simp [get_stop_m, unpack2, hn]

/-- Claim C3 (amended) witness: a two-record file, a start record followed
by a stop record. -/
theorem C3_amended_w :
    get_stop_m [J.arr (JList.ofList [J.str "start", J.obj JFields.nil]), mRecStop] =
      Except.ok (specStop [J.arr (JList.ofList [J.str "start", J.obj JFields.nil]), mRecStop]) :=
  C3_amended_thm [J.arr (JList.ofList [J.str "start", J.obj JFields.nil]), mRecStop]
    (by decide) (by decide)

/-- Claim C7 counterexample: a file whose last non-blank line parses as JSON
but is a three-element array, so it fails to decode as a (name, document)
pair; the probe for the stop record raises an uncaught unpacking error
instead of returning none. -/
theorem C7_counterexample :
    unpack2 badLastLine = none ∧
    tailLine [TLine.val badLastLine] = some (TLine.val badLastLine) ∧
    get_stop_t [TLine.val badLastLine] = Except.error () :=
  ⟨rfl, rfl, rfl⟩

/-- Claim C7 (amended): when the last non-blank line of a text file carries
a JSON syntax error, the stop probe swallows the error and reports no stop
document, without raising; only a line that parses as JSON but fails to
unpack into a two-element (name, document) pair raises. -/
theorem C7_amended_thm (lines : List TLine)
    (h : tailLine lines = some TLine.bad) :
    get_stop_t lines = Except.ok none := by
  unfold get_stop_t
  rw [h]

/-- Claim C7 (amended) witness: a file whose only line fails to parse. -/
theorem C7_amended_w : get_stop_t [TLine.bad] = Except.ok none :=
  C7_amended_thm [TLine.bad] rfl
